import Mathlib

/-!
Verification of the Predict.Fun liquidity-farming market maker.

This file shallowly embeds the quote-calculator (`order_calculator.py`), the
settings manager (`settings_manager.py`) and the order-lifecycle manager
(`order_manager.py`) of the repository, and proves the specification claims
about them.

Modelling conventions:
* Python floats are modelled as exact rationals (`ℚ`); floating point
  representation error is outside the model.
* Python's `round(x, n)` (round-half-to-even on the scaled value) is modelled
  exactly by `rhe` / `roundTo` below.
* Stateful methods of `OrderManager` become pure functions on an explicit
  `ManagerState`, with the network modelled as streams of scripted HTTP
  responses consumed one per request; the response-stream index returned by a
  function counts the HTTP requests it issued.
* The two worker threads used by `place_orders_from_preliminary` /
  `cancel_all_orders` are joined immediately by the source; they are modelled
  as sequential execution (yes side first, then no side).
-/

/-- Round-half-to-even to the nearest integer, as Python's `round` does on the
scaled mantissa: values with fractional part below 1/2 round down, above 1/2
round up, and exact halves go to the even neighbour. -/
def rhe (q : ℚ) : ℤ :=
  let f := ⌊q⌋
  let frac := q - f
  if frac < 1/2 then f
  else if 1/2 < frac then f + 1
  else if f % 2 = 0 then f else f + 1

/-- Python's `round(q, prec)`: round-half-to-even at `prec` decimal places. -/
def roundTo (prec : ℕ) (q : ℚ) : ℚ :=
  (rhe (q * 10 ^ prec) : ℚ) / 10 ^ prec

lemma rhe_of_lt_half {q : ℚ} (h : q - ⌊q⌋ < 1/2) : rhe q = ⌊q⌋ := by
  simp only [rhe]
  rw [if_pos h]

lemma rhe_of_half_lt {q : ℚ} (h : 1/2 < q - ⌊q⌋) : rhe q = ⌊q⌋ + 1 := by
  simp only [rhe]
  rw [if_neg (by linarith), if_pos h]

lemma rhe_eq_low {q : ℚ} {k : ℤ} (h1 : (k : ℚ) ≤ q) (h2 : q < k + 1/2) :
    rhe q = k := by
  have hf : ⌊q⌋ = k := Int.floor_eq_iff.mpr ⟨h1, by linarith⟩
  rw [rhe_of_lt_half (by rw [hf]; linarith)]
  exact hf

lemma rhe_eq_high {q : ℚ} {k : ℤ} (h1 : (k : ℚ) + 1/2 < q) (h2 : q < k + 1) :
    rhe q = k + 1 := by
  have hf : ⌊q⌋ = k := Int.floor_eq_iff.mpr ⟨by linarith, h2⟩
  rw [rhe_of_half_lt (by rw [hf]; linarith)]
  rw [hf]

lemma rhe_intCast (k : ℤ) : rhe (k : ℚ) = k :=
  rhe_eq_low (le_refl _) (by linarith)

/-- Round-half-to-even never moves a value up by more than 1/2. -/
lemma rhe_le_add_half (q : ℚ) : (rhe q : ℚ) ≤ q + 1/2 := by
  have hfl : (⌊q⌋ : ℚ) ≤ q := Int.floor_le q
  simp only [rhe]
  split
  · linarith
  · split
    · push_cast
      rename_i h _
      linarith
    · split
      · linarith
      · push_cast
        rename_i h _ _
        linarith

/-- `roundTo` never moves a value up by more than half a tick. -/
lemma roundTo_le_add_half_tick (prec : ℕ) (q : ℚ) :
    roundTo prec q ≤ q + 1 / (2 * 10 ^ prec) := by
  have hp : (0:ℚ) < 10 ^ prec := by positivity
  have h := rhe_le_add_half (q * 10 ^ prec)
  rw [roundTo, div_le_iff₀ hp]
  have : (q + 1 / (2 * 10 ^ prec)) * 10 ^ prec = q * 10 ^ prec + 1/2 := by
    field_simp
    ring
  rw [this]
  exact h

/- ### Constants of `order_calculator.py` -/

/-- Minimum order value in USD (`MIN_ORDER_VALUE_USD = 1.0`). -/
def MIN_ORDER_VALUE_USD : ℚ := 1

/-- Minimum order price (`MIN_ORDER_PRICE = 0.001`). -/
def MIN_ORDER_PRICE : ℚ := 1/1000

/- ### Sizing pipeline (`OrderCalculator`) -/

/-- `OrderCalculator.calculate_shares_from_usdt`. -/
def calculate_shares_from_usdt (usdt_amount price : ℚ) : ℚ :=
  if price ≤ 0 then 0 else usdt_amount / price

/-- `OrderCalculator.calculate_usdt_from_shares`. -/
def calculate_usdt_from_shares (shares price : ℚ) : ℚ :=
  shares * price

/-- `OrderCalculator.adjust_to_min_order_value`: raise `shares` so that the
notional reaches $1, returning `1/price` when it was below. -/
def adjust_to_min_order_value (shares price : ℚ) : ℚ :=
  if price ≤ 0 then max shares (MIN_ORDER_VALUE_USD / MIN_ORDER_PRICE)
  else if shares * price < MIN_ORDER_VALUE_USD then MIN_ORDER_VALUE_USD / price
  else shares

/-- The body of the `while order_value < MIN_ORDER_VALUE_USD` repair loop of
`round_shares_to_tenths`: one iteration adds 0.1 share. -/
def repairStep (shares : ℚ) : ℚ := shares + 1/10

/-- For a positive price the repair loop's exit condition is eventually
reached: some number of +0.1 steps brings the notional to $1. -/
lemma repairExists (r price : ℚ) (hp : 0 < price) :
    ∃ n : ℕ, MIN_ORDER_VALUE_USD ≤ (r + n * (1/10)) * price := by
  obtain ⟨n, hn⟩ := exists_nat_gt ((MIN_ORDER_VALUE_USD / price - r) * 10)
  refine ⟨n, ?_⟩
  rw [MIN_ORDER_VALUE_USD] at hn ⊢
  have h2 : 1 / price < r + n * (1/10) := by linarith
  have h3 : 1 / price * price = 1 := by field_simp
  nlinarith

/-- `OrderCalculator.round_shares_to_tenths`: round `shares` to one decimal
place, then run `while order_value < MIN_ORDER_VALUE_USD: shares += 0.1`.
The loop is embedded by its denotation: the result after the least number of
+0.1 steps whose notional reaches $1.  When no iteration count works (price
not positive and the rounded notional below $1) the Python loop never
terminates; that case is `none`. -/
def round_shares_to_tenths (shares price : ℚ) : Option ℚ :=
  let r := roundTo 1 shares
  if MIN_ORDER_VALUE_USD ≤ r * price then some r
  else if hp : 0 < price then
    some (r + (Nat.find (repairExists r price hp)) * (1/10))
  else none

/-- With a positive price `round_shares_to_tenths` terminates and its result
has notional at least $1. -/
lemma round_shares_to_tenths_some (shares price : ℚ) (hp : 0 < price) :
    ∃ s, round_shares_to_tenths shares price = some s ∧
      MIN_ORDER_VALUE_USD ≤ s * price := by
  simp only [round_shares_to_tenths]
  by_cases h1 : MIN_ORDER_VALUE_USD ≤ roundTo 1 shares * price
  · exact ⟨_, by rw [if_pos h1], h1⟩
  · rw [if_neg h1, dif_pos hp]
    exact ⟨_, rfl, Nat.find_spec (repairExists (roundTo 1 shares) price hp)⟩

/-- C2: for any price in [0.001, 0.999] and any nonnegative shares input, the
sizing pipeline `adjust_to_min_order_value` followed by
`round_shares_to_tenths` terminates and produces shares whose notional
`price * shares'` is at least `1 - ε` for every `ε ≥ 0` (in the exact
rational model it is at least 1, the $1 floor). -/
theorem sizing_min_notional (price shares : ℚ)
    (hlo : 1/1000 ≤ price) (hhi : price ≤ 999/1000) (hsh : 0 ≤ shares) :
    ∃ s', round_shares_to_tenths (adjust_to_min_order_value shares price) price
        = some s' ∧ ∀ ε : ℚ, 0 ≤ ε → 1 - ε ≤ price * s' := by
  have hp : 0 < price := lt_of_lt_of_le (by norm_num) hlo
  obtain ⟨s', hs', hval⟩ :=
    round_shares_to_tenths_some (adjust_to_min_order_value shares price) price hp
  refine ⟨s', hs', fun ε hε => ?_⟩
  rw [MIN_ORDER_VALUE_USD] at hval
  linarith [mul_comm price s']

/-- C2 witness: the pipeline at price 1/2, shares 0. -/
theorem sizing_min_notional_witness :
    ∃ s', round_shares_to_tenths (adjust_to_min_order_value 0 (1/2)) (1/2)
        = some s' ∧ ∀ ε : ℚ, 0 ≤ ε → 1 - ε ≤ (1/2) * s' :=
  sizing_min_notional (1/2) 0 (by norm_num) (by norm_num) (by norm_num)

lemma repairStep_iterate (r : ℚ) (n : ℕ) :
    repairStep^[n] r = r + n * (1/10) := by
  induction n with
  | zero => simp
  | succ n ih =>
      rw [Function.iterate_succ_apply', ih, repairStep]
      push_cast
      ring

/-- C10: the repair loop of `round_shares_to_tenths` terminates for every
positive price (each +0.1 step strictly increases the notional, and the $1
floor is reached after finitely many steps), and the precondition is
necessary: when the price is not positive and the rounded notional starts
below $1, no number of loop iterations ever satisfies the exit condition and
the loop diverges (`none` in the model). -/
theorem round_shares_termination (shares price : ℚ) :
    (0 < price → (round_shares_to_tenths shares price).isSome = true)
    ∧ (0 < price → ∀ s : ℚ, s * price < (repairStep s) * price)
    ∧ (price ≤ 0 → roundTo 1 shares * price < MIN_ORDER_VALUE_USD →
        round_shares_to_tenths shares price = none
        ∧ ∀ n : ℕ, (repairStep^[n] (roundTo 1 shares)) * price
            < MIN_ORDER_VALUE_USD) := by
  refine ⟨fun hp => ?_, fun hp s => ?_, fun hp hstart => ⟨?_, fun n => ?_⟩⟩
  · obtain ⟨s, hs, -⟩ := round_shares_to_tenths_some shares price hp
    rw [hs]
    rfl
  · rw [repairStep]
    nlinarith
  · simp only [round_shares_to_tenths]
    rw [if_neg (not_le.mpr hstart), dif_neg (not_lt.mpr hp)]
  · rw [repairStep_iterate]
    have hmul : (n : ℚ) * (1/10) * price ≤ 0 :=
      mul_nonpos_of_nonneg_of_nonpos (by positivity) hp
    nlinarith

/-- C10 witness: termination at price 1 (first conjunct), strict increase of
the notional (second conjunct), and divergence at price 0 with shares 0
(third conjunct). -/
theorem round_shares_termination_witness :
    (round_shares_to_tenths 0 1).isSome = true
    ∧ (0 : ℚ) * 1 < repairStep 0 * 1
    ∧ round_shares_to_tenths 0 0 = none :=
  ⟨(round_shares_termination 0 1).1 (by norm_num),
   (round_shares_termination 0 1).2.1 (by norm_num) 0,
   ((round_shares_termination 0 0).2.2 (le_refl 0)
      (by rw [MIN_ORDER_VALUE_USD]; norm_num)).1⟩

/- ### Order book model -/

/-- The two-sided outcome of a binary market; the source passes it as the
case-insensitive string "yes"/"no". -/
inductive Outcome
  | yes
  | no
  deriving DecidableEq, Repr

/-- An order book level `(price, size)` as received in `bids`/`asks`. -/
abbrev Level : Type := ℚ × ℚ

/-- An order book snapshot: `bids` sorted descending, `asks` ascending. -/
structure OrderBook where
  bids : List Level
  asks : List Level
  deriving DecidableEq, Repr

/-- The caller's own resting order as passed to the liquidity walker
(`{"price": float, "shares": float}`). -/
structure OwnOrder where
  price : ℚ
  shares : ℚ
  deriving DecidableEq, Repr

/-- The Yes branch of `calculate_liquidity_before_price`: walk `bids` from the
top, accumulating `price * shares` while `price > our_price`, breaking at the
first level at or below `our_price`. -/
def liqYesLoop (p : ℚ) : List Level → ℚ
  | [] => 0
  | (price, shares) :: rest =>
      if p < price then price * shares + liqYesLoop p rest else 0

/-- The No branch of `calculate_liquidity_before_price`: walk `asks`,
converting each Yes ask to a No price `1 - yes_price` and accumulating
`no_price * shares` while `no_price > our_price_no`, breaking otherwise. -/
def liqNoLoop (p : ℚ) : List Level → ℚ
  | [] => 0
  | (yesPrice, shares) :: rest =>
      let noPrice := 1 - yesPrice
      if p < noPrice then noPrice * shares + liqNoLoop p rest else 0

/-- `OrderCalculator.calculate_liquidity_before_price`: depth resting strictly
ahead of `our_price`, with the caller's own order subtracted when it sits
strictly ahead, clamped to be nonnegative.  Returns 0 when either book side is
empty. -/
def calculate_liquidity_before_price (orderbook : OrderBook) (our_price : ℚ)
    (outcome : Outcome) (our_active_order : Option OwnOrder) : ℚ :=
  if orderbook.bids = [] ∨ orderbook.asks = [] then 0
  else
    let total :=
      match outcome with
      | Outcome.yes => liqYesLoop our_price orderbook.bids
      | Outcome.no => liqNoLoop our_price orderbook.asks
    let total :=
      match our_active_order with
      | none => total
      | some o => if our_price < o.price then total - o.price * o.shares else total
    max 0 total

/-- The own-order deduction of the liquidity walker, as a standalone value:
`price * shares` of the own order when it rests strictly ahead of
`our_price`, else 0. -/
def ownDeduction (our_price : ℚ) : Option OwnOrder → ℚ
  | none => 0
  | some o => if our_price < o.price then o.price * o.shares else 0

lemma liqYesLoop_eq_filter (p : ℚ) :
    ∀ l : List Level, l.Pairwise (fun a b => b.1 ≤ a.1) →
      liqYesLoop p l = ((l.filter fun x => decide (p < x.1)).map
        fun x => x.1 * x.2).sum := by
  intro l hl
  induction l with
  | nil => simp [liqYesLoop]
  | cons hd tl ih =>
      obtain ⟨hrel, htl⟩ := List.pairwise_cons.mp hl
      obtain ⟨price, shares⟩ := hd
      by_cases h : p < price
      · rw [liqYesLoop, if_pos h, List.filter_cons_of_pos (by simpa using h),
          List.map_cons, List.sum_cons, ih htl]
      · rw [liqYesLoop, if_neg h, List.filter_cons_of_neg (by simpa using h)]
        have : tl.filter (fun x => decide (p < x.1)) = [] := by
          rw [List.filter_eq_nil]
          intro a ha
          simp only [decide_eq_true_eq, not_lt]
          exact le_trans (hrel a ha) (not_lt.mp h)
        rw [this]
        simp

lemma liqNoLoop_cons (p yesPrice shares : ℚ) (tl : List Level) :
    liqNoLoop p ((yesPrice, shares) :: tl)
      = if p < 1 - yesPrice then (1 - yesPrice) * shares + liqNoLoop p tl
        else 0 := rfl

lemma liqNoLoop_eq_filter (p : ℚ) :
    ∀ l : List Level, l.Pairwise (fun a b => a.1 ≤ b.1) →
      liqNoLoop p l = ((l.filter fun x => decide (p < 1 - x.1)).map
        fun x => (1 - x.1) * x.2).sum := by
  intro l hl
  induction l with
  | nil => simp [liqNoLoop]
  | cons hd tl ih =>
      obtain ⟨hrel, htl⟩ := List.pairwise_cons.mp hl
      obtain ⟨yesPrice, shares⟩ := hd
      by_cases h : p < 1 - yesPrice
      · rw [liqNoLoop_cons, if_pos h, List.filter_cons_of_pos (by simpa using h),
          List.map_cons, List.sum_cons, ih htl]
      · rw [liqNoLoop_cons, if_neg h, List.filter_cons_of_neg (by simpa using h)]
        have : tl.filter (fun x => decide (p < 1 - x.1)) = [] := by
          rw [List.filter_eq_nil]
          intro a ha
          simp only [decide_eq_true_eq, not_lt]
          have := hrel a ha
          have := not_lt.mp h
          linarith
        rw [this]
        simp

/-- C3: on any order book whose bids are sorted descending and asks ascending
(both sides nonempty), `calculate_liquidity_before_price` computes, for the
Yes side, the sum of `price * size` over exactly the bid levels with price
strictly above `p`, and for the No side the sum of `(1 - askPrice) * size`
over exactly the ask levels whose converted No price is strictly above `p`,
minus the own order's `price * shares` when that order rests strictly above
`p`, clamped to be nonnegative. -/
theorem liquidity_before_price_filter_sum (book : OrderBook) (p : ℚ)
    (own : Option OwnOrder)
    (hb : book.bids ≠ []) (ha : book.asks ≠ [])
    (hbs : book.bids.Pairwise (fun a b => b.1 ≤ a.1))
    (has : book.asks.Pairwise (fun a b => a.1 ≤ b.1)) :
    calculate_liquidity_before_price book p Outcome.yes own
      = max 0 (((book.bids.filter fun x => decide (p < x.1)).map
          fun x => x.1 * x.2).sum - ownDeduction p own)
    ∧ calculate_liquidity_before_price book p Outcome.no own
      = max 0 (((book.asks.filter fun x => decide (p < 1 - x.1)).map
          fun x => (1 - x.1) * x.2).sum - ownDeduction p own) := by
  have hcond : ¬(book.bids = [] ∨ book.asks = []) := by
    simp [hb, ha]
  constructor
  · rw [calculate_liquidity_before_price, if_neg hcond,
      liqYesLoop_eq_filter p book.bids hbs]
    cases own with
    | none => simp [ownDeduction]
    | some o =>
        by_cases h : p < o.price
        · simp [ownDeduction, if_pos h]
        · simp [ownDeduction, if_neg h]
  · rw [calculate_liquidity_before_price, if_neg hcond,
      liqNoLoop_eq_filter p book.asks has]
    cases own with
    | none => simp [ownDeduction]
    | some o =>
        by_cases h : p < o.price
        · simp [ownDeduction, if_pos h]
        · simp [ownDeduction, if_neg h]

/-- C3 witness: a concrete two-level sorted book with an own order resting
ahead of the candidate price 0.4. -/
theorem liquidity_before_price_filter_sum_witness :
    calculate_liquidity_before_price
        ⟨[(1/2, 100), (2/5, 50)], [(3/5, 10), (7/10, 20)]⟩ (2/5)
        Outcome.yes (some ⟨1/2, 10⟩)
      = max 0 ((([((1:ℚ)/2, (100:ℚ)), (2/5, 50)].filter
          fun x => decide ((2/5 : ℚ) < x.1)).map fun x => x.1 * x.2).sum
            - ownDeduction (2/5) (some ⟨1/2, 10⟩)) :=
  (liquidity_before_price_filter_sum ⟨[(1/2, 100), (2/5, 50)], [(3/5, 10), (7/10, 20)]⟩
    (2/5) (some ⟨1/2, 10⟩) (by simp) (by simp)
    (by norm_num) (by norm_num)).1

/- ### Token settings (`settings_manager.py`, `config.py`) -/

/-- Per-market `TokenSettings`.  Optional Python floats become `Option ℚ`. -/
structure TokenSettings where
  market_id : String
  spread_percent : ℚ
  position_size_usdt : Option ℚ
  position_size_shares : Option ℚ
  min_liquidity_usdt : Option ℚ
  min_spread : Option ℚ
  enabled : Bool
  auto_spread_enabled : Bool
  target_liquidity : ℚ
  max_auto_spread : ℚ
  is_custom : Bool
  deriving DecidableEq, Repr

/-- The defaults of `config.py` used by the `TokenSettings` constructor. -/
def defaultTokenSettings (market_id : String) : TokenSettings where
  market_id := market_id
  spread_percent := 3
  position_size_usdt := some 100
  position_size_shares := none
  min_liquidity_usdt := some 300
  min_spread := some (1/5)
  enabled := true
  auto_spread_enabled := false
  target_liquidity := 1000
  max_auto_spread := 6
  is_custom := false

/-- Python's `x or d` on a float: `d` when `x` is falsy (zero). -/
def pyOrQ (x d : ℚ) : ℚ := if x = 0 then d else x

/-- Python's `x or d` on an optional float: `d` when `x` is `None` or zero. -/
def pyOrOpt (x : Option ℚ) (d : ℚ) : ℚ :=
  match x with
  | none => d
  | some v => if v = 0 then d else v

/- ### Price rounding and the liquidity-target walker -/

/-- `OrderCalculator.round_price_by_precision`: round to whole cents for
precision 2, tenth-cents for precision 3, and to 3 places otherwise. -/
def round_price_by_precision (price : ℚ) (decimal_precision : ℕ) : ℚ :=
  if decimal_precision = 2 then roundTo 2 price
  else if decimal_precision = 3 then roundTo 3 price
  else roundTo 3 price

/-- The Yes branch of `find_price_by_target_liquidity`: walk `bids` top down,
accumulating `price * shares`; at the first level where the accumulated
liquidity reaches the target, return that level's price minus one tick,
rounded; `none` when every level is walked without reaching the target. -/
def findPriceYesLoop (target tick : ℚ) (prec : ℕ) (acc : ℚ) :
    List Level → Option ℚ
  | [] => none
  | (price, shares) :: rest =>
      let acc' := acc + price * shares
      if target ≤ acc' then some (roundTo prec (price - tick))
      else findPriceYesLoop target tick prec acc' rest

/-- The No branch of `find_price_by_target_liquidity`: walk the Yes `asks`,
converting each to a No price rounded to 4 places. -/
def findPriceNoLoop (target tick : ℚ) (prec : ℕ) (acc : ℚ) :
    List Level → Option ℚ
  | [] => none
  | (yesPrice, shares) :: rest =>
      let noPrice := roundTo 4 (1 - yesPrice)
      let acc' := acc + noPrice * shares
      if target ≤ acc' then some (roundTo prec (noPrice - tick))
      else findPriceNoLoop target tick prec acc' rest

/-- `OrderCalculator.find_price_by_target_liquidity` (with
`return_info=False`): the price in front of which the target liquidity rests;
when the walk exhausts the book side, one tick below the last (worst) level;
0 when either book side is empty. -/
def find_price_by_target_liquidity (orderbook : OrderBook) (target : ℚ)
    (outcome : Outcome) (decimal_precision : ℕ) : ℚ :=
  if orderbook.bids = [] ∨ orderbook.asks = [] then 0
  else
    let tick : ℚ := 1 / 10 ^ decimal_precision
    match outcome with
    | Outcome.yes =>
        match findPriceYesLoop target tick decimal_precision 0 orderbook.bids with
        | some p => p
        | none =>
            roundTo decimal_precision ((orderbook.bids.getLastD (0, 0)).1 - tick)
    | Outcome.no =>
        match findPriceNoLoop target tick decimal_precision 0 orderbook.asks with
        | some p => p
        | none =>
            roundTo decimal_precision
              (roundTo 4 (1 - (orderbook.asks.getLastD (1, 0)).1) - tick)

/- ### The quote calculator (`calculate_limit_orders`) -/

/-- The pair of the caller's own active orders passed to
`calculate_limit_orders` as `active_orders = {"yes": ..., "no": ...}`. -/
structure ActivePair where
  yes : Option OwnOrder
  no : Option OwnOrder
  deriving DecidableEq, Repr

/-- The quote dictionary returned by `calculate_limit_orders`. -/
structure Quote where
  mid_price_yes : ℚ
  mid_price_no : ℚ
  best_bid_yes : ℚ
  best_ask_yes : ℚ
  buy_yes_price : ℚ
  buy_yes_shares : ℚ
  buy_yes_value_usd : ℚ
  buy_no_price : ℚ
  buy_no_shares : ℚ
  buy_no_value_usd : ℚ
  total_value_usd : ℚ
  liquidity_yes : ℚ
  liquidity_no : ℚ
  can_place_yes : Bool
  can_place_no : Bool
  min_liquidity : ℚ
  spread_yes : ℚ
  spread_no : ℚ
  min_spread : ℚ
  can_place_yes_liquidity : Bool
  can_place_no_liquidity : Bool
  can_place_yes_spread : Bool
  can_place_no_spread : Bool
  deriving DecidableEq, Repr

/-- The position-size branch of `calculate_limit_orders` for one side: shares
from `position_size_usdt` (or directly `position_size_shares`), adjusted to
the $1 minimum and rounded to tenths; `none` when neither size is set (the
source returns `None` for the whole quote in that case). -/
def computeBuyShares (st : TokenSettings) (price : ℚ) : Option ℚ :=
  match st.position_size_usdt with
  | some usdt =>
      round_shares_to_tenths
        (adjust_to_min_order_value (calculate_shares_from_usdt usdt price) price)
        price
  | none =>
      match st.position_size_shares with
      | some sh => round_shares_to_tenths (adjust_to_min_order_value sh price) price
      | none => none

/-- Steps 1-3 of `calculate_limit_orders` for one outcome: the candidate buy
price — fixed spread `mid * (1 - spread_percent/100)`, or in auto-spread mode
the liquidity-target walker capped below by `mid - max_auto_spread/100` —
tick-rounded and clamped to [0.001, 0.999].  `mid` is the mid price of the
outcome being priced. -/
def quoteBuyPrice (orderbook : OrderBook) (st : TokenSettings)
    (decimal_precision : ℕ) (outcome : Outcome) (mid : ℚ) : ℚ :=
  let base :=
    if st.auto_spread_enabled then
      max (find_price_by_target_liquidity orderbook (pyOrQ st.target_liquidity 1000)
            outcome decimal_precision)
          (mid - pyOrQ st.max_auto_spread 6 / 100)
    else mid * (1 - st.spread_percent / 100)
  max (min (round_price_by_precision base decimal_precision) (999/1000))
      MIN_ORDER_PRICE

/-- The tail of `calculate_limit_orders` once the mid price and the two
clamped buy prices are computed: sizing, liquidity ahead, admissibility
checks, and assembly of the quote dictionary. -/
def quoteAssemble (orderbook : OrderBook) (st : TokenSettings)
    (active_orders : Option ActivePair) (bb ba : Level) (mid_price_yes : ℚ)
    (buy_price_yes buy_price_no : ℚ) : Option Quote :=
  let best_bid_yes := bb.1
  let best_ask_yes := ba.1
  let mid_price_no := 1 - mid_price_yes
  match computeBuyShares st buy_price_yes, computeBuyShares st buy_price_no with
    | some buy_shares_yes, some buy_shares_no =>
      let buy_value_yes_usd := calculate_usdt_from_shares buy_shares_yes buy_price_yes
      let buy_value_no_usd := calculate_usdt_from_shares buy_shares_no buy_price_no
      let total_value_usd := max buy_value_yes_usd buy_value_no_usd
      let our_active_order_yes :=
        match active_orders with
        | none => none
        | some a => a.yes
      let our_active_order_no :=
        match active_orders with
        | none => none
        | some a => a.no
      let liquidity_yes :=
        calculate_liquidity_before_price orderbook buy_price_yes Outcome.yes
          our_active_order_yes
      let liquidity_no :=
        calculate_liquidity_before_price orderbook buy_price_no Outcome.no
          our_active_order_no
      let min_liquidity :=
        if st.auto_spread_enabled then pyOrQ st.target_liquidity 1000
        else pyOrOpt st.min_liquidity_usdt 0
      let can_place_yes_liquidity := decide (min_liquidity ≤ liquidity_yes)
      let can_place_no_liquidity := decide (min_liquidity ≤ liquidity_no)
      let min_spread_cents := pyOrOpt st.min_spread (1/5)
      let min_spread_dollars := min_spread_cents / 100
      let can_place_yes_spread :=
        if buy_price_yes ≤ MIN_ORDER_PRICE then
          decide (min_spread_dollars ≤ |mid_price_yes - buy_price_yes|)
        else true
      let can_place_no_spread :=
        if buy_price_no ≤ MIN_ORDER_PRICE then
          decide (min_spread_dollars ≤ |mid_price_no - buy_price_no|)
        else true
      let spread_yes :=
        if buy_price_yes ≤ MIN_ORDER_PRICE then |mid_price_yes - buy_price_yes|
        else if mid_price_yes = 0 then 0 else |mid_price_yes - buy_price_yes|
      let spread_no :=
        if buy_price_no ≤ MIN_ORDER_PRICE then |mid_price_no - buy_price_no|
        else if mid_price_no = 0 then 0 else |mid_price_no - buy_price_no|
      some
        { mid_price_yes := mid_price_yes
          mid_price_no := mid_price_no
          best_bid_yes := best_bid_yes
          best_ask_yes := best_ask_yes
          buy_yes_price := buy_price_yes
          buy_yes_shares := buy_shares_yes
          buy_yes_value_usd := buy_value_yes_usd
          buy_no_price := buy_price_no
          buy_no_shares := buy_shares_no
          buy_no_value_usd := buy_value_no_usd
          total_value_usd := total_value_usd
          liquidity_yes := liquidity_yes
          liquidity_no := liquidity_no
          can_place_yes := can_place_yes_liquidity && can_place_yes_spread
          can_place_no := can_place_no_liquidity && can_place_no_spread
          min_liquidity := min_liquidity
          spread_yes := spread_yes
          spread_no := spread_no
          min_spread := min_spread_cents
          can_place_yes_liquidity := can_place_yes_liquidity
          can_place_no_liquidity := can_place_no_liquidity
          can_place_yes_spread := can_place_yes_spread
          can_place_no_spread := can_place_no_spread }
    | _, _ => none

/-- `OrderCalculator.calculate_limit_orders`: the full quote computation.
Candidate prices come from the fixed spread or the liquidity-target walker
(capped by the max auto spread), are tick-rounded and clamped to
[0.001, 0.999] (`quoteBuyPrice`); sizes, liquidity ahead, and the
admissibility flags follow (`quoteAssemble`).  `none` when a book side is
empty or neither position size is configured. -/
def calculate_limit_orders (orderbook : OrderBook) (st : TokenSettings)
    (decimal_precision : ℕ) (active_orders : Option ActivePair) : Option Quote :=
  match orderbook.bids, orderbook.asks with
  | [], _ => none
  | _ :: _, [] => none
  | bb :: _, ba :: _ =>
      let mid_price_yes := (bb.1 + ba.1) / 2
      quoteAssemble orderbook st active_orders bb ba mid_price_yes
        (quoteBuyPrice orderbook st decimal_precision Outcome.yes mid_price_yes)
        (quoteBuyPrice orderbook st decimal_precision Outcome.no (1 - mid_price_yes))

/- ### Bounds on the depth walkers -/

lemma liqYesLoop_cons (p price shares : ℚ) (tl : List Level) :
    liqYesLoop p ((price, shares) :: tl)
      = if p < price then price * shares + liqYesLoop p tl else 0 := rfl

lemma findPriceYesLoop_cons (target tick : ℚ) (prec : ℕ) (acc price shares : ℚ)
    (rest : List Level) :
    findPriceYesLoop target tick prec acc ((price, shares) :: rest)
      = if target ≤ acc + price * shares then some (roundTo prec (price - tick))
        else findPriceYesLoop target tick prec (acc + price * shares) rest := rfl

lemma sum_level_values_nonneg (l : List Level)
    (h : ∀ x ∈ l, 0 ≤ x.1 ∧ 0 ≤ x.2) :
    0 ≤ (l.map fun x => x.1 * x.2).sum := by
  induction l with
  | nil => simp
  | cons hd tl ih =>
      simp only [List.map_cons, List.sum_cons]
      have h1 := h hd (List.mem_cons_self hd tl)
      have h2 := ih (fun x hx => h x (List.mem_cons_of_mem hd hx))
      nlinarith [mul_nonneg h1.1 h1.2]

lemma liqYesLoop_le_sum (p : ℚ) (l : List Level)
    (h : ∀ x ∈ l, 0 ≤ x.1 ∧ 0 ≤ x.2) :
    liqYesLoop p l ≤ (l.map fun x => x.1 * x.2).sum := by
  induction l with
  | nil => simp [liqYesLoop]
  | cons hd tl ih =>
      obtain ⟨price, shares⟩ := hd
      have hhd := h (price, shares) (List.mem_cons_self _ _)
      have htl : ∀ x ∈ tl, 0 ≤ x.1 ∧ 0 ≤ x.2 :=
        fun x hx => h x (List.mem_cons_of_mem _ hx)
      have hsum := sum_level_values_nonneg tl htl
      rw [liqYesLoop_cons]
      simp only [List.map_cons, List.sum_cons]
      by_cases hc : p < price
      · rw [if_pos hc]
        linarith [ih htl]
      · rw [if_neg hc]
        nlinarith [mul_nonneg hhd.1 hhd.2]

/-- The liquidity ahead of any Yes price (with no own order) is bounded by the
total notional depth of the bid side. -/
lemma calculate_liquidity_yes_le_sum (book : OrderBook) (p : ℚ)
    (hb : book.bids ≠ []) (ha : book.asks ≠ [])
    (hnn : ∀ x ∈ book.bids, 0 ≤ x.1 ∧ 0 ≤ x.2) :
    calculate_liquidity_before_price book p Outcome.yes none
      ≤ (book.bids.map fun x => x.1 * x.2).sum := by
  have hcond : ¬(book.bids = [] ∨ book.asks = []) := by simp [hb, ha]
  rw [calculate_liquidity_before_price, if_neg hcond]
  exact max_le (sum_level_values_nonneg _ hnn) (liqYesLoop_le_sum p _ hnn)

lemma findPriceYesLoop_none (target tick : ℚ) (prec : ℕ) :
    ∀ (l : List Level) (acc : ℚ),
      (∀ x ∈ l, 0 ≤ x.1 ∧ 0 ≤ x.2) →
      acc + (l.map fun x => x.1 * x.2).sum < target →
      findPriceYesLoop target tick prec acc l = none := by
  intro l
  induction l with
  | nil => intro acc _ _; rfl
  | cons hd tl ih =>
      intro acc h hlt
      obtain ⟨price, shares⟩ := hd
      have htl : ∀ x ∈ tl, 0 ≤ x.1 ∧ 0 ≤ x.2 :=
        fun x hx => h x (List.mem_cons_of_mem _ hx)
      have hsum := sum_level_values_nonneg tl htl
      simp only [List.map_cons, List.sum_cons] at hlt
      rw [findPriceYesLoop_cons, if_neg (by linarith)]
      exact ih (acc + price * shares) htl (by linarith)

/-- When the bid side's total notional depth is below the target, the Yes
walker exhausts the book and returns one tick below the worst bid. -/
lemma find_price_yes_exhaust (book : OrderBook) (target : ℚ) (prec : ℕ)
    (hb : book.bids ≠ []) (ha : book.asks ≠ [])
    (hnn : ∀ x ∈ book.bids, 0 ≤ x.1 ∧ 0 ≤ x.2)
    (hsum : (book.bids.map fun x => x.1 * x.2).sum < target) :
    find_price_by_target_liquidity book target Outcome.yes prec
      = roundTo prec ((book.bids.getLastD (0, 0)).1 - 1 / 10 ^ prec) := by
  have hcond : ¬(book.bids = [] ∨ book.asks = []) := by simp [hb, ha]
  have hloop : findPriceYesLoop target (1 / 10 ^ prec) prec 0 book.bids = none :=
    findPriceYesLoop_none _ _ _ book.bids 0 hnn (by linarith)
  rw [find_price_by_target_liquidity, if_neg hcond]
  simp only [hloop]

/- ### Structure of the assembled quote -/

lemma computeBuyShares_some (st : TokenSettings) (price : ℚ) (hp : 0 < price)
    (hsize : st.position_size_usdt.isSome = true
      ∨ st.position_size_shares.isSome = true) :
    ∃ s, computeBuyShares st price = some s := by
  rcases husdt : st.position_size_usdt with _ | u
  · rcases hsh : st.position_size_shares with _ | sh
    · rw [husdt] at hsize
      rw [hsh] at hsize
      simp at hsize
    · obtain ⟨s, hs, -⟩ :=
        round_shares_to_tenths_some (adjust_to_min_order_value sh price) price hp
      refine ⟨s, ?_⟩
      simp only [computeBuyShares, husdt, hsh]
      exact hs
  · obtain ⟨s, hs, -⟩ := round_shares_to_tenths_some
      (adjust_to_min_order_value (calculate_shares_from_usdt u price) price) price hp
    refine ⟨s, ?_⟩
    simp only [computeBuyShares, husdt]
    exact hs

lemma MIN_ORDER_PRICE_le_quoteBuyPrice (orderbook : OrderBook)
    (st : TokenSettings) (prec : ℕ) (outcome : Outcome) (mid : ℚ) :
    MIN_ORDER_PRICE ≤ quoteBuyPrice orderbook st prec outcome mid := by
  simp only [quoteBuyPrice]
  exact le_max_right _ _

lemma quoteBuyPrice_pos (orderbook : OrderBook) (st : TokenSettings)
    (prec : ℕ) (outcome : Outcome) (mid : ℚ) :
    0 < quoteBuyPrice orderbook st prec outcome mid :=
  lt_of_lt_of_le (by rw [MIN_ORDER_PRICE]; norm_num)
    (MIN_ORDER_PRICE_le_quoteBuyPrice orderbook st prec outcome mid)

/-- `quoteAssemble` with positive buy prices and a configured position size
produces a quote, and the fields the claims inspect have the stated values. -/
lemma quoteAssemble_spec (orderbook : OrderBook) (st : TokenSettings)
    (act : Option ActivePair) (bb ba : Level) (mid p1 p2 : ℚ)
    (hp1 : 0 < p1) (hp2 : 0 < p2)
    (hsize : st.position_size_usdt.isSome = true
      ∨ st.position_size_shares.isSome = true) :
    ∃ q, quoteAssemble orderbook st act bb ba mid p1 p2 = some q
      ∧ q.mid_price_yes = mid
      ∧ q.buy_yes_price = p1
      ∧ q.buy_no_price = p2
      ∧ q.liquidity_yes
          = calculate_liquidity_before_price orderbook p1 Outcome.yes
              (match act with | none => none | some a => a.yes)
      ∧ q.min_liquidity
          = (if st.auto_spread_enabled then pyOrQ st.target_liquidity 1000
             else pyOrOpt st.min_liquidity_usdt 0)
      ∧ q.can_place_yes
          = (decide (q.min_liquidity ≤ q.liquidity_yes)
              && (if p1 ≤ MIN_ORDER_PRICE
                  then decide (pyOrOpt st.min_spread (1/5) / 100 ≤ |mid - p1|)
                  else true)) := by
  obtain ⟨s1, hs1⟩ := computeBuyShares_some st p1 hp1 hsize
  obtain ⟨s2, hs2⟩ := computeBuyShares_some st p2 hp2 hsize
  simp only [quoteAssemble, hs1, hs2]
  exact ⟨_, rfl, rfl, rfl, rfl, rfl, rfl, rfl⟩

/-- C5: in auto-spread mode, when the Yes walker exhausts every bid level of a
nonempty book without the accumulated depth reaching the target liquidity,
the returned Yes price is the last (worst) bid price minus one tick, rounded
to the market's tick precision, and the quote computed from the same book has
`can_place_yes = false`. -/
theorem auto_spread_exhaust_price_and_no_place (book : OrderBook)
    (st : TokenSettings) (prec : ℕ) (bb ba : Level) (bt at_ : List Level)
    (hb : book.bids = bb :: bt) (ha : book.asks = ba :: at_)
    (hnn : ∀ x ∈ book.bids, 0 ≤ x.1 ∧ 0 ≤ x.2)
    (hauto : st.auto_spread_enabled = true)
    (hsum : (book.bids.map fun x => x.1 * x.2).sum
        < pyOrQ st.target_liquidity 1000)
    (hsize : st.position_size_usdt.isSome = true
      ∨ st.position_size_shares.isSome = true) :
    find_price_by_target_liquidity book (pyOrQ st.target_liquidity 1000)
        Outcome.yes prec
      = roundTo prec ((book.bids.getLastD (0, 0)).1 - 1 / 10 ^ prec)
    ∧ ∃ q, calculate_limit_orders book st prec none = some q
        ∧ q.can_place_yes = false := by
  have hbne : book.bids ≠ [] := by rw [hb]; exact List.cons_ne_nil _ _
  have hane : book.asks ≠ [] := by rw [ha]; exact List.cons_ne_nil _ _
  refine ⟨find_price_yes_exhaust book _ prec hbne hane hnn hsum, ?_⟩
  obtain ⟨q, hq, hmid, hpy, hpn, hliq, hminliq, hcp⟩ :=
    quoteAssemble_spec book st none bb ba ((bb.1 + ba.1) / 2)
      (quoteBuyPrice book st prec Outcome.yes ((bb.1 + ba.1) / 2))
      (quoteBuyPrice book st prec Outcome.no (1 - (bb.1 + ba.1) / 2))
      (quoteBuyPrice_pos _ _ _ _ _) (quoteBuyPrice_pos _ _ _ _ _) hsize
  refine ⟨q, ?_, ?_⟩
  · rw [calculate_limit_orders]
    obtain ⟨bids, asks⟩ := book
    simp only at hb ha
    subst hb
    subst ha
    exact hq
  · have hle := calculate_liquidity_yes_le_sum book
      (quoteBuyPrice book st prec Outcome.yes ((bb.1 + ba.1) / 2)) hbne hane hnn
    have hlt : ¬(q.min_liquidity ≤ q.liquidity_yes) := by
      rw [hminliq, hauto, if_pos rfl, hliq]
      exact not_le.mpr (lt_of_le_of_lt hle hsum)
    rw [hcp, decide_eq_false hlt, Bool.false_and]

/-- C5 witness: a one-level book with $0.50 of bid depth against the default
$1000 target in auto-spread mode. -/
theorem auto_spread_exhaust_price_and_no_place_witness :
    find_price_by_target_liquidity ⟨[(1/2, 1)], [(3/5, 1)]⟩
        (pyOrQ ({ defaultTokenSettings "m" with
          auto_spread_enabled := true } : TokenSettings).target_liquidity 1000)
        Outcome.yes 3
      = roundTo 3 ((([((1:ℚ)/2, (1:ℚ))] : List Level).getLastD (0, 0)).1
          - 1 / 10 ^ 3)
    ∧ ∃ q, calculate_limit_orders ⟨[(1/2, 1)], [(3/5, 1)]⟩
        ({ defaultTokenSettings "m" with auto_spread_enabled := true }) 3 none
        = some q ∧ q.can_place_yes = false :=
  auto_spread_exhaust_price_and_no_place ⟨[(1/2, 1)], [(3/5, 1)]⟩
    ({ defaultTokenSettings "m" with auto_spread_enabled := true }) 3
    (1/2, 1) (3/5, 1) [] []
    rfl rfl
    (by intro x hx; simp at hx; rw [hx]; norm_num)
    rfl
    (by norm_num [defaultTokenSettings, pyOrQ])
    (by left; rfl)

/- ### Fixed-spread price bound (C6) -/

lemma round_price_by_precision_eq (price : ℚ) (prec : ℕ) :
    round_price_by_precision price prec
      = roundTo (if prec = 2 then 2 else 3) price := by
  rw [round_price_by_precision]
  by_cases h1 : prec = 2
  · rw [if_pos h1, if_pos h1]
  · rw [if_neg h1, if_neg h1]
    by_cases h2 : prec = 3
    · rw [if_pos h2]
    · rw [if_neg h2]

lemma quoteBuyPrice_fixed_le (orderbook : OrderBook) (st : TokenSettings)
    (prec : ℕ) (outcome : Outcome) (mid : ℚ)
    (hauto : st.auto_spread_enabled = false) (hs : 0 ≤ st.spread_percent)
    (hmid : 0 ≤ mid) :
    quoteBuyPrice orderbook st prec outcome mid
      ≤ max (mid + 1 / (2 * 10 ^ (if prec = 2 then 2 else 3)))
          MIN_ORDER_PRICE := by
  simp only [quoteBuyPrice, hauto, Bool.false_eq_true, if_false]
  have hr : round_price_by_precision (mid * (1 - st.spread_percent / 100)) prec
      ≤ mid + 1 / (2 * 10 ^ (if prec = 2 then 2 else 3)) := by
    rw [round_price_by_precision_eq]
    have h1 := roundTo_le_add_half_tick (if prec = 2 then 2 else 3)
      (mid * (1 - st.spread_percent / 100))
    nlinarith
  exact max_le_max (le_trans (min_le_left _ _) hr) (le_refl MIN_ORDER_PRICE)

/-- C6 (amended): in fixed-spread mode with `spread_percent ≥ 0` and
nonnegative best bid/ask, the pre-rounding candidate
`mid * (1 - spread_percent/100)` never exceeds the mid price, and the buy
price in the computed quote exceeds the mid price by at most half a tick or
up to the 0.001 floor: it is bounded by
`max (mid + halfTick) MIN_ORDER_PRICE`. -/
theorem fixed_spread_buy_price_bound (book : OrderBook) (st : TokenSettings)
    (prec : ℕ) (act : Option ActivePair) (bb ba : Level) (bt at_ : List Level)
    (q : Quote)
    (hb : book.bids = bb :: bt) (ha : book.asks = ba :: at_)
    (hbb : 0 ≤ bb.1) (hba : 0 ≤ ba.1)
    (hauto : st.auto_spread_enabled = false) (hs : 0 ≤ st.spread_percent)
    (hq : calculate_limit_orders book st prec act = some q) :
    q.mid_price_yes * (1 - st.spread_percent / 100) ≤ q.mid_price_yes
    ∧ q.buy_yes_price
        ≤ max (q.mid_price_yes + 1 / (2 * 10 ^ (if prec = 2 then 2 else 3)))
            MIN_ORDER_PRICE := by
  obtain ⟨bids, asks⟩ := book
  simp only at hb ha
  subst hb
  subst ha
  simp only [calculate_limit_orders, quoteAssemble] at hq
  split at hq
  · rename_i s1 s2 hs1 hs2
    rw [Option.some.injEq] at hq
    subst hq
    have hmid : 0 ≤ (bb.1 + ba.1) / 2 := by linarith
    constructor
    · show (bb.1 + ba.1) / 2 * (1 - st.spread_percent / 100) ≤ (bb.1 + ba.1) / 2
      nlinarith
    · show quoteBuyPrice ⟨bb :: bt, ba :: at_⟩ st prec Outcome.yes
          ((bb.1 + ba.1) / 2)
        ≤ max ((bb.1 + ba.1) / 2 + 1 / (2 * 10 ^ (if prec = 2 then 2 else 3)))
            MIN_ORDER_PRICE
      exact quoteBuyPrice_fixed_le ⟨bb :: bt, ba :: at_⟩ st prec Outcome.yes
        ((bb.1 + ba.1) / 2) hauto hs hmid
  · exact absurd hq (by simp)

/-- Concrete evaluation: on the book `bids=[(0.0001,1)]`, `asks=[(0.0003,1)]`
(mid 0.0002) with the default fixed-spread settings, the Yes candidate rounds
to 0 and the floor clamp raises the buy price to 0.001. -/
lemma quoteBuyPrice_floor_eval :
    quoteBuyPrice ⟨[(1/10000, 1)], [(3/10000, 1)]⟩ (defaultTokenSettings "m") 3
      Outcome.yes (((1:ℚ)/10000 + 3/10000) / 2) = 1/1000 := by
  have harg : (((1:ℚ)/10000 + 3/10000) / 2) * (1 - 3 / 100) = 97/500000 := by
    norm_num
  have hrt : roundTo 3 ((97:ℚ)/500000) = 0 := by
    rw [roundTo, show ((97:ℚ)/500000) * 10 ^ 3 = 97/500 by norm_num,
      rhe_eq_low (k := 0) (by norm_num) (by norm_num)]
    norm_num
  simp only [quoteBuyPrice, defaultTokenSettings, Bool.false_eq_true, if_false]
  rw [harg, round_price_by_precision, if_neg (by norm_num), if_pos rfl, hrt,
    MIN_ORDER_PRICE, min_eq_left (by norm_num), max_eq_right (by norm_num)]

/-- C6 counterexample: on the book `bids=[(0.0001,1)]`, `asks=[(0.0003,1)]`
with the default fixed-spread settings (`spread_percent = 3 ≥ 0`), the
computed quote's Yes buy price (0.001, raised by the floor clamp) is strictly
above the Yes mid price (0.0002), refuting "the buy price is never above the
mid price". -/
theorem fixed_spread_buy_above_mid_cex :
    ∃ q, calculate_limit_orders ⟨[(1/10000, 1)], [(3/10000, 1)]⟩
        (defaultTokenSettings "m") 3 none = some q
      ∧ q.mid_price_yes < q.buy_yes_price := by
  obtain ⟨q, hq, hmid, hpy, -, -, -⟩ :=
    quoteAssemble_spec ⟨[(1/10000, 1)], [(3/10000, 1)]⟩ (defaultTokenSettings "m")
      none (1/10000, 1) (3/10000, 1) (((1:ℚ)/10000 + 3/10000) / 2)
      (quoteBuyPrice ⟨[(1/10000, 1)], [(3/10000, 1)]⟩ (defaultTokenSettings "m")
        3 Outcome.yes (((1:ℚ)/10000 + 3/10000) / 2))
      (quoteBuyPrice ⟨[(1/10000, 1)], [(3/10000, 1)]⟩ (defaultTokenSettings "m")
        3 Outcome.no (1 - ((1:ℚ)/10000 + 3/10000) / 2))
      (quoteBuyPrice_pos _ _ _ _ _) (quoteBuyPrice_pos _ _ _ _ _)
      (Or.inl rfl)
  refine ⟨q, hq, ?_⟩
  rw [hmid, hpy, quoteBuyPrice_floor_eval]
  norm_num

/-- C6 witness (for the amended bound): the same concrete floor-clamp book,
where the bound `buy ≤ max (mid + halfTick) 0.001` holds with the buy price
sitting exactly at the floor. -/
theorem fixed_spread_buy_price_bound_witness :
    ∃ q, calculate_limit_orders ⟨[(1/10000, 1)], [(3/10000, 1)]⟩
        (defaultTokenSettings "m") 3 none = some q
      ∧ q.mid_price_yes * (1 - (defaultTokenSettings "m").spread_percent / 100)
          ≤ q.mid_price_yes
      ∧ q.buy_yes_price
          ≤ max (q.mid_price_yes + 1 / (2 * 10 ^ (if (3:ℕ) = 2 then 2 else 3)))
              MIN_ORDER_PRICE := by
  obtain ⟨q, hq, -, -, -, -, -⟩ :=
    quoteAssemble_spec ⟨[(1/10000, 1)], [(3/10000, 1)]⟩ (defaultTokenSettings "m")
      none (1/10000, 1) (3/10000, 1) (((1:ℚ)/10000 + 3/10000) / 2)
      (quoteBuyPrice ⟨[(1/10000, 1)], [(3/10000, 1)]⟩ (defaultTokenSettings "m")
        3 Outcome.yes (((1:ℚ)/10000 + 3/10000) / 2))
      (quoteBuyPrice ⟨[(1/10000, 1)], [(3/10000, 1)]⟩ (defaultTokenSettings "m")
        3 Outcome.no (1 - ((1:ℚ)/10000 + 3/10000) / 2))
      (quoteBuyPrice_pos _ _ _ _ _) (quoteBuyPrice_pos _ _ _ _ _)
      (Or.inl rfl)
  exact ⟨q, hq,
    fixed_spread_buy_price_bound ⟨[(1/10000, 1)], [(3/10000, 1)]⟩
      (defaultTokenSettings "m") 3 none (1/10000, 1) (3/10000, 1) [] [] q
      rfl rfl (by norm_num) (by norm_num) rfl (by norm_num [defaultTokenSettings])
      hq⟩

/- ### `SettingsManager.update_settings` -/

/-- The optional keyword arguments of `update_settings` (`None` = not
supplied). -/
structure UpdateArgs where
  spread_percent : Option ℚ := none
  position_size_usdt : Option ℚ := none
  position_size_shares : Option ℚ := none
  min_liquidity_usdt : Option ℚ := none
  min_spread : Option ℚ := none
  enabled : Option Bool := none
  auto_spread_enabled : Option Bool := none
  target_liquidity : Option ℚ := none
  max_auto_spread : Option ℚ := none
  deriving Repr

/-- `if spread_percent is not None:` block of `update_settings`. -/
def updSpread (args : UpdateArgs) (s : TokenSettings) : TokenSettings :=
  match args.spread_percent with
  | some v => { s with spread_percent := v, is_custom := true }
  | none => s

/-- `if position_size_usdt is not None:` block: setting USDT clears shares. -/
def updUsdt (args : UpdateArgs) (s : TokenSettings) : TokenSettings :=
  match args.position_size_usdt with
  | some v => { s with position_size_usdt := some v,
                       position_size_shares := none, is_custom := true }
  | none => s

/-- `if position_size_shares is not None:` block: setting shares clears
USDT. -/
def updShares (args : UpdateArgs) (s : TokenSettings) : TokenSettings :=
  match args.position_size_shares with
  | some v => { s with position_size_shares := some v,
                       position_size_usdt := none, is_custom := true }
  | none => s

/-- `if min_liquidity_usdt is not None:` block. -/
def updMinLiq (args : UpdateArgs) (s : TokenSettings) : TokenSettings :=
  match args.min_liquidity_usdt with
  | some v => { s with min_liquidity_usdt := some v, is_custom := true }
  | none => s

/-- `if min_spread is not None:` block. -/
def updMinSpread (args : UpdateArgs) (s : TokenSettings) : TokenSettings :=
  match args.min_spread with
  | some v => { s with min_spread := some v, is_custom := true }
  | none => s

/-- `if enabled is not None:` block. -/
def updEnabled (args : UpdateArgs) (s : TokenSettings) : TokenSettings :=
  match args.enabled with
  | some v => { s with enabled := v, is_custom := true }
  | none => s

/-- `if auto_spread_enabled is not None:` block. -/
def updAutoSpread (args : UpdateArgs) (s : TokenSettings) : TokenSettings :=
  match args.auto_spread_enabled with
  | some v => { s with auto_spread_enabled := v, is_custom := true }
  | none => s

/-- `if target_liquidity is not None:` block. -/
def updTargetLiq (args : UpdateArgs) (s : TokenSettings) : TokenSettings :=
  match args.target_liquidity with
  | some v => { s with target_liquidity := v, is_custom := true }
  | none => s

/-- `if max_auto_spread is not None:` block. -/
def updMaxAuto (args : UpdateArgs) (s : TokenSettings) : TokenSettings :=
  match args.max_auto_spread with
  | some v => { s with max_auto_spread := v, is_custom := true }
  | none => s

/-- `SettingsManager.update_settings` for one market: `get_settings` returns
the stored settings, creating the defaults when absent, and the supplied
arguments are applied in the source's order (file persistence elided). -/
def update_settings (stored : Option TokenSettings) (market_id : String)
    (args : UpdateArgs) : TokenSettings :=
  updMaxAuto args (updTargetLiq args (updAutoSpread args (updEnabled args
    (updMinSpread args (updMinLiq args (updShares args (updUsdt args
      (updSpread args (stored.getD (defaultTokenSettings market_id))))))))))

lemma updMinLiq_size (args : UpdateArgs) (s : TokenSettings) :
    (updMinLiq args s).position_size_usdt = s.position_size_usdt
    ∧ (updMinLiq args s).position_size_shares = s.position_size_shares := by
  rw [updMinLiq]
  cases args.min_liquidity_usdt <;> exact ⟨rfl, rfl⟩

lemma updMinSpread_size (args : UpdateArgs) (s : TokenSettings) :
    (updMinSpread args s).position_size_usdt = s.position_size_usdt
    ∧ (updMinSpread args s).position_size_shares = s.position_size_shares := by
  rw [updMinSpread]
  cases args.min_spread <;> exact ⟨rfl, rfl⟩

lemma updEnabled_size (args : UpdateArgs) (s : TokenSettings) :
    (updEnabled args s).position_size_usdt = s.position_size_usdt
    ∧ (updEnabled args s).position_size_shares = s.position_size_shares := by
  rw [updEnabled]
  cases args.enabled <;> exact ⟨rfl, rfl⟩

lemma updAutoSpread_size (args : UpdateArgs) (s : TokenSettings) :
    (updAutoSpread args s).position_size_usdt = s.position_size_usdt
    ∧ (updAutoSpread args s).position_size_shares = s.position_size_shares := by
  rw [updAutoSpread]
  cases args.auto_spread_enabled <;> exact ⟨rfl, rfl⟩

lemma updTargetLiq_size (args : UpdateArgs) (s : TokenSettings) :
    (updTargetLiq args s).position_size_usdt = s.position_size_usdt
    ∧ (updTargetLiq args s).position_size_shares = s.position_size_shares := by
  rw [updTargetLiq]
  cases args.target_liquidity <;> exact ⟨rfl, rfl⟩

lemma updMaxAuto_size (args : UpdateArgs) (s : TokenSettings) :
    (updMaxAuto args s).position_size_usdt = s.position_size_usdt
    ∧ (updMaxAuto args s).position_size_shares = s.position_size_shares := by
  rw [updMaxAuto]
  cases args.max_auto_spread <;> exact ⟨rfl, rfl⟩

/-- The position-size fields of `update_settings` are exactly those after the
two size blocks; the later blocks do not touch them. -/
lemma update_settings_size_fields (stored : Option TokenSettings)
    (market_id : String) (args : UpdateArgs) :
    (update_settings stored market_id args).position_size_usdt
      = (updShares args (updUsdt args (updSpread args
          (stored.getD (defaultTokenSettings market_id))))).position_size_usdt
    ∧ (update_settings stored market_id args).position_size_shares
      = (updShares args (updUsdt args (updSpread args
          (stored.getD (defaultTokenSettings market_id))))).position_size_shares := by
  rw [update_settings]
  constructor
  · rw [(updMaxAuto_size _ _).1, (updTargetLiq_size _ _).1,
      (updAutoSpread_size _ _).1, (updEnabled_size _ _).1,
      (updMinSpread_size _ _).1, (updMinLiq_size _ _).1]
  · rw [(updMaxAuto_size _ _).2, (updTargetLiq_size _ _).2,
      (updAutoSpread_size _ _).2, (updEnabled_size _ _).2,
      (updMinSpread_size _ _).2, (updMinLiq_size _ _).2]

/-- C7: from any state in which exactly one of `position_size_usdt` /
`position_size_shares` is non-null (including the default settings created
for an unknown market), any `update_settings` call leaves exactly one of the
two non-null; supplying `position_size_shares` sets it and clears
`position_size_usdt`, and supplying only `position_size_usdt` sets it and
clears `position_size_shares`. -/
theorem update_settings_size_mutual_exclusion (stored : Option TokenSettings)
    (market_id : String) (args : UpdateArgs)
    (h : ∀ t, stored = some t →
      t.position_size_usdt.isSome ≠ t.position_size_shares.isSome) :
    ((update_settings stored market_id args).position_size_usdt.isSome
      ≠ (update_settings stored market_id args).position_size_shares.isSome)
    ∧ (∀ v, args.position_size_shares = some v →
        (update_settings stored market_id args).position_size_shares = some v
        ∧ (update_settings stored market_id args).position_size_usdt = none)
    ∧ (∀ v, args.position_size_usdt = some v →
        args.position_size_shares = none →
        (update_settings stored market_id args).position_size_usdt = some v
        ∧ (update_settings stored market_id args).position_size_shares = none) := by
  obtain ⟨hu, hsh⟩ := update_settings_size_fields stored market_id args
  have hbase : (updSpread args (stored.getD
      (defaultTokenSettings market_id))).position_size_usdt.isSome
      ≠ (updSpread args (stored.getD
        (defaultTokenSettings market_id))).position_size_shares.isSome := by
    have hs0 : (stored.getD (defaultTokenSettings market_id)).position_size_usdt.isSome
        ≠ (stored.getD (defaultTokenSettings market_id)).position_size_shares.isSome := by
      cases stored with
      | none => simp [defaultTokenSettings]
      | some t => exact h t rfl
    rw [updSpread]
    cases args.spread_percent <;> exact hs0
  refine ⟨?_, ?_, ?_⟩
  · rw [hu, hsh, updShares]
    cases hargs : args.position_size_shares with
    | some v => simp
    | none =>
        rw [updUsdt]
        cases hargu : args.position_size_usdt with
        | some v => simp
        | none => exact hbase
  · intro v hv
    rw [hu, hsh, updShares, hv]
    exact ⟨rfl, rfl⟩
  · intro v hv hnone
    rw [hu, hsh, updShares, hnone, updUsdt, hv]
    exact ⟨rfl, rfl⟩

/-- C7 witness: starting from the defaults (USDT size active), supplying
`position_size_shares = 7` clears the USDT size and keeps exactly one field
active. -/
theorem update_settings_size_mutual_exclusion_witness :
    ((update_settings none "m"
        { position_size_shares := some 7 }).position_size_usdt.isSome
      ≠ (update_settings none "m"
        { position_size_shares := some 7 }).position_size_shares.isSome)
    ∧ (update_settings none "m"
        { position_size_shares := some 7 }).position_size_shares = some 7
    ∧ (update_settings none "m"
        { position_size_shares := some 7 }).position_size_usdt = none := by
  obtain ⟨h1, h2, -⟩ := update_settings_size_mutual_exclusion none "m"
    { position_size_shares := some 7 } (by intro t ht; cases ht)
  obtain ⟨h3, h4⟩ := h2 7 rfl
  exact ⟨h1, h3, h4⟩

/- ### Order lifecycle manager (`order_manager.py`) -/

/-- The per-slot order record stored in `self.active_orders[outcome]`
(`hash` elided; it never influences control flow). -/
structure OrderInfo where
  order_id : Option String
  price : ℚ
  shares : ℚ
  deriving DecidableEq, Repr

/-- The mutable state of one `OrderManager`: the two slots, the
`{placed, cancelled}` counters, the last observed mid price, and the
market-wide `placing_orders` guard. -/
structure ManagerState where
  active_yes : Option OrderInfo
  active_no : Option OrderInfo
  placed : ℕ
  cancelled : ℕ
  last_mid_price_yes : Option ℚ
  placing_orders : Bool
  deriving DecidableEq, Repr

/-- `self.active_orders[outcome]`. -/
def ManagerState.getActive (s : ManagerState) : Outcome → Option OrderInfo
  | Outcome.yes => s.active_yes
  | Outcome.no => s.active_no

/-- `self.active_orders[outcome] = v`. -/
def ManagerState.setActive (s : ManagerState) (o : Outcome)
    (v : Option OrderInfo) : ManagerState :=
  match o with
  | Outcome.yes => { s with active_yes := v }
  | Outcome.no => { s with active_no := v }

/-- One HTTP response as the manager inspects it: status code, the body's
`success` flag, whether the body's `message` is "Invalid JWT" (checked on
401), whether the body text carries the insufficient-collateral markers
(checked on 400), and the order id of the body's `data` on success. -/
structure HResp where
  status : ℕ
  success : Bool
  invalidJwt : Bool
  insufficientCollateral : Bool
  orderId : Option String
  deriving DecidableEq, Repr

/-- Outcome of one HTTP request: a response, or a raised
`requests.exceptions.RequestException`. -/
inductive NetResult
  | resp (r : HResp)
  | exn
  deriving DecidableEq, Repr

/-- The manager's environment: the stream of outcomes of its HTTP order
requests (consumed one per request, indexed by a running counter), the
stream of `_refresh_jwt` results, and the behaviour of the
insufficient-collateral reconciliation collaborators
(`_get_active_orders_from_api` / `_cancel_orders_by_ids`). -/
structure PlaceEnv where
  responses : ℕ → NetResult
  refreshOk : ℕ → Bool
  apiOrders : List String
  cancelByIdsOk : Bool

/-- The slot-clearing effect of a successful `_cancel_orders_by_ids`: a slot
whose `order_id` matches a cancelled id is reset. -/
def clearMatching (id : String) (o : Option OrderInfo) : Option OrderInfo :=
  match o with
  | some info => if info.order_id = some id then none else some info
  | none => none

/-- State effect of a successful `_cancel_orders_by_ids(ids)`: clear every
matching slot and add `len(ids)` to the `cancelled` counter. -/
def cancelByIdsApply (ids : List String) (s : ManagerState) : ManagerState :=
  let cleared := ids.foldl
    (fun st id => { st with active_yes := clearMatching id st.active_yes,
                            active_no := clearMatching id st.active_no }) s
  { cleared with cancelled := cleared.cancelled + ids.length }

/-- The `for attempt in range(1, max_attempts + 1)` loop of
`OrderManager.place_order` (the token-resolution and signing preamble before
the loop is not modelled; its failures precede any request).  `attempts` is
the list of remaining attempt numbers; `k`/`j` index the response/refresh
streams; falling off the loop returns `None`.  `continue` recurses on the
remaining attempts — including after a 401 "Invalid JWT" refresh and after
the attempt-1 insufficient-collateral reconciliation, exactly as in the
source. -/
def placeAttempts (env : PlaceEnv) (outcome : Outcome) (price shares : ℚ) :
    List ℕ → ℕ → ℕ → ManagerState → Option OrderInfo × ManagerState × ℕ × ℕ
  | [], k, j, s => (none, s, k, j)
  | a :: rest, k, j, s =>
    match env.responses k with
    | NetResult.exn =>
        if rest = [] then (none, s, k + 1, j)
        else placeAttempts env outcome price shares rest (k + 1) j s
    | NetResult.resp r =>
        if r.status < 400 then
          if r.success then
            let info : OrderInfo :=
              { order_id := r.orderId, price := price, shares := shares }
            let s' := s.setActive outcome (some info)
            (some info, { s' with placed := s'.placed + 1 }, k + 1, j)
          else (none, s, k + 1, j)
        else if r.status = 400 ∧ r.insufficientCollateral = true then
          if a = 1 ∧ env.apiOrders ≠ [] then
            placeAttempts env outcome price shares rest (k + 1) j
              (if env.cancelByIdsOk then cancelByIdsApply env.apiOrders s else s)
          else (none, s, k + 1, j)
        else if r.status = 401 ∧ r.invalidJwt = true then
          if env.refreshOk j then
            placeAttempts env outcome price shares rest (k + 1) (j + 1) s
          else (none, s, k + 1, j + 1)
        else
          if (r.status = 429 ∨ r.status = 502 ∨ r.status = 503 ∨ r.status = 504
              ∨ 500 ≤ r.status) ∧ rest ≠ [] then
            placeAttempts env outcome price shares rest (k + 1) j s
          else (none, s, k + 1, j)

/-- `OrderManager.place_order`: up to 3 attempts; on success installs the
`ActiveOrder` and increments `placed`. -/
def place_order (env : PlaceEnv) (k j : ℕ) (s : ManagerState)
    (outcome : Outcome) (price shares : ℚ) :
    Option OrderInfo × ManagerState × ℕ × ℕ :=
  placeAttempts env outcome price shares [1, 2, 3] k j s

/-- The attempt loop of `OrderManager.cancel_order`: a 404 is treated as
success (order already gone) and handled before any retry logic; 401
"Invalid JWT" refreshes and retries; 429/5xx retry within the budget;
falling off the loop is a falsy return. -/
def cancelAttempts (env : PlaceEnv) (outcome : Outcome) :
    List ℕ → ℕ → ℕ → ManagerState → Bool × ManagerState × ℕ × ℕ
  | [], k, j, s => (false, s, k, j)
  | _a :: rest, k, j, s =>
    match env.responses k with
    | NetResult.exn =>
        if rest = [] then (false, s, k + 1, j)
        else cancelAttempts env outcome rest (k + 1) j s
    | NetResult.resp r =>
        if r.status < 400 then
          if r.success then
            let s' := s.setActive outcome none
            (true, { s' with cancelled := s'.cancelled + 1 }, k + 1, j)
          else (false, s, k + 1, j)
        else if r.status = 404 then
          let s' := s.setActive outcome none
          (true, { s' with cancelled := s'.cancelled + 1 }, k + 1, j)
        else if r.status = 401 ∧ r.invalidJwt = true then
          if env.refreshOk j then cancelAttempts env outcome rest (k + 1) (j + 1) s
          else (false, s, k + 1, j + 1)
        else
          if (r.status = 429 ∨ r.status = 502 ∨ r.status = 503 ∨ r.status = 504
              ∨ 500 ≤ r.status) ∧ rest ≠ [] then
            cancelAttempts env outcome rest (k + 1) j s
          else (false, s, k + 1, j)

/-- `OrderManager.cancel_order`: reports "nothing to cancel" (returns False
without any request) when the slot is absent or carries no order id;
otherwise runs the attempt loop. -/
def cancel_order (env : PlaceEnv) (k j : ℕ) (s : ManagerState)
    (outcome : Outcome) : Bool × ManagerState × ℕ × ℕ :=
  match s.getActive outcome with
  | none => (false, s, k, j)
  | some order =>
      match order.order_id with
      | none => (false, s, k, j)
      | some _ => cancelAttempts env outcome [1, 2, 3] k j s

/-- `OrderManager.cancel_all_orders`: both slots (source: two joined threads,
modelled sequentially), result the conjunction. -/
def cancel_all_orders (env : PlaceEnv) (k j : ℕ) (s : ManagerState) :
    Bool × ManagerState × ℕ × ℕ :=
  let ry := cancel_order env k j s Outcome.yes
  let rn := cancel_order env ry.2.2.1 ry.2.2.2 ry.2.1 Outcome.no
  (ry.1 && rn.1, rn.2.1, rn.2.2.1, rn.2.2.2)

/-- One side of the preliminary order info dictionary
(`{"price": ..., "shares": ...}`). -/
structure SideQuote where
  price : ℚ
  shares : ℚ
  deriving DecidableEq, Repr

/-- The preliminary quote passed to `place_orders_from_preliminary`:
`buy_yes`/`buy_no` are `None` when the dictionary entry is missing/empty, and
the `can_place` flags default to `True` when absent (`.get(..., True)`).
The liquidity fields read only for logging are elided. -/
structure PrelimInfo where
  buy_yes : Option SideQuote
  buy_no : Option SideQuote
  can_place_yes : Option Bool
  can_place_no : Option Bool
  deriving DecidableEq, Repr

/-- `OrderManager.place_orders_from_preliminary`: no-op returning True when
the market-wide `placing_orders` guard is already set; otherwise sets the
guard, flushes all orders when the mid price moved by more than 0.0001,
records the mid, fails when a buy side is missing, places each outcome only
if its `can_place` flag holds and its slot is empty (an occupied slot or a
skipped side reports success), and finally clears the guard (`finally`).
The source's two placement threads are joined immediately and modelled
sequentially (yes, then no). -/
def place_orders_from_preliminary (env : PlaceEnv) (k j : ℕ)
    (s : ManagerState) (order_info : PrelimInfo) (mid_price_yes : ℚ) :
    Bool × ManagerState × ℕ × ℕ :=
  if s.placing_orders then (true, s, k, j)
  else
    let s0 : ManagerState := { s with placing_orders := true }
    let step1 : ManagerState × ℕ × ℕ :=
      match s0.last_mid_price_yes with
      | some lastMid =>
          if 1/10000 < |lastMid - mid_price_yes| then
            let rc := cancel_all_orders env k j s0
            (rc.2.1, rc.2.2.1, rc.2.2.2)
          else (s0, k, j)
      | none => (s0, k, j)
    let s2 : ManagerState :=
      { step1.1 with last_mid_price_yes := some mid_price_yes }
    match order_info.buy_yes, order_info.buy_no with
    | some buy_yes, some buy_no =>
        let yesStep : Bool × ManagerState × ℕ × ℕ :=
          if order_info.can_place_yes.getD true = true ∧ s2.active_yes = none then
            let rp := place_order env step1.2.1 step1.2.2 s2 Outcome.yes
              buy_yes.price buy_yes.shares
            (rp.1.isSome, rp.2.1, rp.2.2.1, rp.2.2.2)
          else (true, s2, step1.2.1, step1.2.2)
        let noStep : Bool × ManagerState × ℕ × ℕ :=
          if order_info.can_place_no.getD true = true
              ∧ yesStep.2.1.active_no = none then
            let rp := place_order env yesStep.2.2.1 yesStep.2.2.2 yesStep.2.1
              Outcome.no buy_no.price buy_no.shares
            (rp.1.isSome, rp.2.1, rp.2.2.1, rp.2.2.2)
          else (true, yesStep.2.1, yesStep.2.2.1, yesStep.2.2.2)
        (yesStep.1 && noStep.1, { noStep.2.1 with placing_orders := false },
          noStep.2.2.1, noStep.2.2.2)
    | _, _ => (false, { s2 with placing_orders := false }, step1.2.1, step1.2.2)

lemma getActive_setActive_none (s : ManagerState) (o : Outcome) :
    ((s.setActive o none).getActive o) = none := by
  cases o <;> rfl

lemma setActive_cancelled (s : ManagerState) (o : Outcome)
    (v : Option OrderInfo) : (s.setActive o v).cancelled = s.cancelled := by
  cases o <;> rfl

/-- C9: calling `cancel_order` for an outcome whose slot is absent is a no-op
reporting "nothing to cancel" (a falsy result): the manager state is returned
unchanged and the request/refresh counters do not move — no network call is
issued. -/
theorem cancel_order_absent_noop (env : PlaceEnv) (k j : ℕ)
    (s : ManagerState) (outcome : Outcome)
    (h : s.getActive outcome = none) :
    cancel_order env k j s outcome = (false, s, k, j) := by
  rw [cancel_order, h]

/-- C9 witness: cancel on the empty initial state. -/
theorem cancel_order_absent_noop_witness :
    cancel_order
        { responses := fun _ => NetResult.exn, refreshOk := fun _ => true,
          apiOrders := [], cancelByIdsOk := true } 0 0
        { active_yes := none, active_no := none, placed := 0, cancelled := 0,
          last_mid_price_yes := none, placing_orders := false } Outcome.yes
      = (false,
         { active_yes := none, active_no := none, placed := 0, cancelled := 0,
           last_mid_price_yes := none, placing_orders := false }, 0, 0) :=
  cancel_order_absent_noop _ 0 0 _ Outcome.yes rfl

/-- C8: when `cancel_order` on an occupied slot (with an order id) receives
an HTTP 404 on its first request, it reports success, clears that outcome's
slot, increments the `cancelled` counter by exactly one, and issues no
further request (the request counter advances by exactly one). -/
theorem cancel_order_404_success (env : PlaceEnv) (k j : ℕ)
    (s : ManagerState) (outcome : Outcome) (o : OrderInfo) (oid : String)
    (r : HResp)
    (hactive : s.getActive outcome = some o) (hid : o.order_id = some oid)
    (hresp : env.responses k = NetResult.resp r) (h404 : r.status = 404) :
    (cancel_order env k j s outcome).1 = true
    ∧ ((cancel_order env k j s outcome).2.1).getActive outcome = none
    ∧ ((cancel_order env k j s outcome).2.1).cancelled = s.cancelled + 1
    ∧ (cancel_order env k j s outcome).2.2.1 = k + 1
    ∧ (cancel_order env k j s outcome).2.2.2 = j := by
  have hrun : cancel_order env k j s outcome
      = (true, { s.setActive outcome none with
                  cancelled := (s.setActive outcome none).cancelled + 1 },
         k + 1, j) := by
    simp only [cancel_order, hactive, hid]
    rw [cancelAttempts]
    simp only [hresp]
    rw [if_neg (by rw [h404]; norm_num), if_pos h404]
  rw [hrun]
  refine ⟨rfl, getActive_setActive_none s outcome, ?_, rfl, rfl⟩
  show (s.setActive outcome none).cancelled + 1 = s.cancelled + 1
  rw [setActive_cancelled]

/-- C8 witness: a manager holding a Yes order with id "7" receiving a 404. -/
theorem cancel_order_404_success_witness :
    (cancel_order
        { responses := fun _ => NetResult.resp
            { status := 404, success := false, invalidJwt := false,
              insufficientCollateral := false, orderId := none },
          refreshOk := fun _ => true, apiOrders := [], cancelByIdsOk := true }
        0 0
        { active_yes := some { order_id := some "7", price := 1/2, shares := 3 },
          active_no := none, placed := 4, cancelled := 1,
          last_mid_price_yes := none, placing_orders := false }
        Outcome.yes).1 = true
    ∧ ((cancel_order
        { responses := fun _ => NetResult.resp
            { status := 404, success := false, invalidJwt := false,
              insufficientCollateral := false, orderId := none },
          refreshOk := fun _ => true, apiOrders := [], cancelByIdsOk := true }
        0 0
        { active_yes := some { order_id := some "7", price := 1/2, shares := 3 },
          active_no := none, placed := 4, cancelled := 1,
          last_mid_price_yes := none, placing_orders := false }
        Outcome.yes).2.1).getActive Outcome.yes = none
    ∧ ((cancel_order
        { responses := fun _ => NetResult.resp
            { status := 404, success := false, invalidJwt := false,
              insufficientCollateral := false, orderId := none },
          refreshOk := fun _ => true, apiOrders := [], cancelByIdsOk := true }
        0 0
        { active_yes := some { order_id := some "7", price := 1/2, shares := 3 },
          active_no := none, placed := 4, cancelled := 1,
          last_mid_price_yes := none, placing_orders := false }
        Outcome.yes).2.1).cancelled = 1 + 1 :=
  have h := cancel_order_404_success
    { responses := fun _ => NetResult.resp
        { status := 404, success := false, invalidJwt := false,
          insufficientCollateral := false, orderId := none },
      refreshOk := fun _ => true, apiOrders := [], cancelByIdsOk := true }
    0 0
    { active_yes := some { order_id := some "7", price := 1/2, shares := 3 },
      active_no := none, placed := 4, cancelled := 1,
      last_mid_price_yes := none, placing_orders := false }
    Outcome.yes { order_id := some "7", price := 1/2, shares := 3 } "7"
    { status := 404, success := false, invalidJwt := false,
      insufficientCollateral := false, orderId := none }
    rfl rfl rfl rfl
  ⟨h.1, h.2.1, h.2.2.1⟩

/-- C4: `place_orders_from_preliminary` is reconciliation-safe, for every
possible behaviour of the network environment.  (a) A call that observes the
market-wide `placing_orders` guard set returns True immediately with the
state and the request counters untouched.  (b) When the guard is clear, both
buy sides are present, both outcome slots are occupied, and the mid price is
unchanged (or not yet recorded), the call reports success, issues no network
request (the request and refresh counters are unchanged, for every
environment), performs no placement, and leaves the state unchanged except
for recording the mid price — in particular the `placed` counter and both
slots are unchanged, so arbitrarily repeated calls keep the placement count
constant. -/
theorem place_from_preliminary_idempotent (env : PlaceEnv) (k j : ℕ)
    (s : ManagerState) (info : PrelimInfo) (mid : ℚ) :
    (s.placing_orders = true →
      place_orders_from_preliminary env k j s info mid = (true, s, k, j))
    ∧ (s.placing_orders = false →
       info.buy_yes.isSome = true → info.buy_no.isSome = true →
       s.active_yes.isSome = true → s.active_no.isSome = true →
       (s.last_mid_price_yes = none ∨ s.last_mid_price_yes = some mid) →
       place_orders_from_preliminary env k j s info mid
         = (true, { s with last_mid_price_yes := some mid,
                           placing_orders := false }, k, j)) := by
  constructor
  · intro hpl
    rw [place_orders_from_preliminary, if_pos hpl]
  · intro hpl hby hbn hay han hlm
    obtain ⟨b1, hb1⟩ := Option.isSome_iff_exists.mp hby
    obtain ⟨b2, hb2⟩ := Option.isSome_iff_exists.mp hbn
    obtain ⟨a1, ha1⟩ := Option.isSome_iff_exists.mp hay
    obtain ⟨a2, ha2⟩ := Option.isSome_iff_exists.mp han
    obtain ⟨ay, an, pl, cn, lm, po⟩ := s
    simp only at hpl ha1 ha2 hlm
    subst hpl
    subst ha1
    subst ha2
    rcases hlm with hlm | hlm
    · subst hlm
      simp [place_orders_from_preliminary, hb1, hb2, Option.some_ne_none]
    · subst hlm
      simp only [place_orders_from_preliminary, hb1, hb2]
      rw [if_neg (show ¬((1:ℚ)/10000 < |mid - mid|) by norm_num)]
      simp [Option.some_ne_none]

/-- C4 witness: a manager with both slots occupied and the mid already
recorded; a repeated call changes nothing; and a call under a set
`placing_orders` guard is a no-op. -/
theorem place_from_preliminary_idempotent_witness :
    place_orders_from_preliminary
        { responses := fun _ => NetResult.exn, refreshOk := fun _ => true,
          apiOrders := [], cancelByIdsOk := true } 0 0
        { active_yes := none, active_no := none, placed := 0, cancelled := 0,
          last_mid_price_yes := none, placing_orders := true }
        { buy_yes := none, buy_no := none,
          can_place_yes := none, can_place_no := none } (1/2)
      = (true,
         { active_yes := none, active_no := none, placed := 0, cancelled := 0,
           last_mid_price_yes := none, placing_orders := true }, 0, 0)
    ∧ place_orders_from_preliminary
        { responses := fun _ => NetResult.exn, refreshOk := fun _ => true,
          apiOrders := [], cancelByIdsOk := true } 0 0
        { active_yes := some { order_id := some "1", price := 1/2, shares := 3 },
          active_no := some { order_id := some "2", price := 2/5, shares := 3 },
          placed := 1, cancelled := 0, last_mid_price_yes := some (1/2),
          placing_orders := false }
        { buy_yes := some { price := 1/2, shares := 3 },
          buy_no := some { price := 2/5, shares := 3 },
          can_place_yes := some true, can_place_no := some true } (1/2)
      = (true,
         { active_yes := some { order_id := some "1", price := 1/2, shares := 3 },
           active_no := some { order_id := some "2", price := 2/5, shares := 3 },
           placed := 1, cancelled := 0, last_mid_price_yes := some (1/2),
           placing_orders := false }, 0, 0) :=
  ⟨(place_from_preliminary_idempotent
    { responses := fun _ => NetResult.exn, refreshOk := fun _ => true,
      apiOrders := [], cancelByIdsOk := true } 0 0
    { active_yes := none, active_no := none, placed := 0, cancelled := 0,
      last_mid_price_yes := none, placing_orders := true }
    { buy_yes := none, buy_no := none,
      can_place_yes := none, can_place_no := none } (1/2)).1 rfl,
  (place_from_preliminary_idempotent
    { responses := fun _ => NetResult.exn, refreshOk := fun _ => true,
      apiOrders := [], cancelByIdsOk := true } 0 0
    { active_yes := some { order_id := some "1", price := 1/2, shares := 3 },
      active_no := some { order_id := some "2", price := 2/5, shares := 3 },
      placed := 1, cancelled := 0, last_mid_price_yes := some (1/2),
      placing_orders := false }
    { buy_yes := some { price := 1/2, shares := 3 },
      buy_no := some { price := 2/5, shares := 3 },
      can_place_yes := some true, can_place_no := some true } (1/2)).2
    rfl rfl rfl rfl rfl (Or.inr rfl)⟩

/-- The placement loop issues at most as many requests as it has attempt
numbers left, whatever the responses: every path, the 401-refresh retry and
the collateral reconciliation included, consumes an attempt. -/
lemma placeAttempts_req_le (env : PlaceEnv) (outcome : Outcome)
    (price shares : ℚ) :
    ∀ (att : List ℕ) (k j : ℕ) (s : ManagerState),
      (placeAttempts env outcome price shares att k j s).2.2.1
        ≤ k + att.length := by
  intro att
  induction att with
  | nil =>
      intro k j s
      exact Nat.le_add_right k 0
  | cons a rest ih =>
      intro k j s
      have hlen : (a :: rest).length = rest.length + 1 := rfl
      cases hm : env.responses k with
      | exn =>
          simp only [placeAttempts, hm]
          split_ifs
          · show k + 1 ≤ k + (a :: rest).length
            omega
          · exact le_trans (ih (k + 1) j s) (by omega)
      | resp r =>
          simp only [placeAttempts, hm]
          split_ifs <;>
            first
            | exact le_trans (ih _ _ _) (by omega)
            | (show k + 1 ≤ k + (a :: rest).length
               omega)

/-- C1 (amended): on HTTP 401 with body message "Invalid JWT" the manager
refreshes the token and retries, but the retry runs inside the normal
3-attempt budget — `place_order` never issues more than 3 HTTP requests, for
any sequence of responses (so a refresh can happen on each attempt that sees
a 401, up to 3 times, not exactly once) — and when the refresh fails the
operation returns failure (`none`) immediately after the single request that
saw the 401. -/
theorem place_order_jwt_retry_amended (env : PlaceEnv) (k j : ℕ)
    (s : ManagerState) (outcome : Outcome) (price shares : ℚ) :
    (place_order env k j s outcome price shares).2.2.1 ≤ k + 3
    ∧ (∀ r : HResp, env.responses k = NetResult.resp r → r.status = 401 →
        r.invalidJwt = true → env.refreshOk j = false →
        place_order env k j s outcome price shares = (none, s, k + 1, j + 1)) := by
  constructor
  · exact placeAttempts_req_le env outcome price shares [1, 2, 3] k j s
  · intro r hr h401 hjwt href
    rw [place_order]
    simp only [placeAttempts, hr]
    rw [if_neg (by rw [h401]; norm_num)]
    rw [if_neg (by rw [h401]; simp)]
    rw [if_pos ⟨h401, hjwt⟩]
    rw [href]
    simp

/-- Environment for the C1 counterexample: the placement endpoint answers
401 "Invalid JWT" (refresh succeeds), then 500, 500, and would answer
200-success to a fourth request. -/
def jwtFirstEnv : PlaceEnv where
  responses := fun n =>
    if n = 0 then NetResult.resp
      { status := 401, success := false, invalidJwt := true,
        insufficientCollateral := false, orderId := none }
    else if n = 3 then NetResult.resp
      { status := 200, success := true, invalidJwt := false,
        insufficientCollateral := false, orderId := some "1" }
    else NetResult.resp
      { status := 500, success := false, invalidJwt := false,
        insufficientCollateral := false, orderId := none }
  refreshOk := fun _ => true
  apiOrders := []
  cancelByIdsOk := true

/-- The same network outcomes without the leading 401: 500, 500, then
200-success. -/
def noJwtEnv : PlaceEnv where
  responses := fun n =>
    if n = 2 then NetResult.resp
      { status := 200, success := true, invalidJwt := false,
        insufficientCollateral := false, orderId := some "1" }
    else NetResult.resp
      { status := 500, success := false, invalidJwt := false,
        insufficientCollateral := false, orderId := none }
  refreshOk := fun _ => true
  apiOrders := []
  cancelByIdsOk := true

/-- A freshly initialised `OrderManager` state. -/
def freshManagerState : ManagerState where
  active_yes := none
  active_no := none
  placed := 0
  cancelled := 0
  last_mid_price_yes := none
  placing_orders := false

/-- C1 counterexample: with the 401-then-500-500 response stream (refresh
succeeding) the placement fails, while the identical stream without the 401
— two 500s then a success — succeeds within the 3-attempt budget.  If the
401-triggered retry were outside the normal retry budget, as the claim
states, the first run would reach the success response too; it returns
`none` because the JWT retry consumed attempt 1. -/
theorem place_order_jwt_retry_consumes_budget_cex :
    (place_order jwtFirstEnv 0 0 freshManagerState Outcome.yes 1 2).1 = none
    ∧ (place_order noJwtEnv 0 0 freshManagerState Outcome.yes 1 2).1
        = some { order_id := some "1", price := 1, shares := 2 } := by
  constructor
  · simp [place_order, placeAttempts, jwtFirstEnv, freshManagerState]
  · simp [place_order, placeAttempts, noJwtEnv, freshManagerState,
      ManagerState.setActive]

/-- Environment whose placement endpoint always answers 401 "Invalid JWT"
and whose token refresh always fails. -/
def refreshFailEnv : PlaceEnv where
  responses := fun _ => NetResult.resp
    { status := 401, success := false, invalidJwt := true,
      insufficientCollateral := false, orderId := none }
  refreshOk := fun _ => false
  apiOrders := []
  cancelByIdsOk := true

/-- C1 witness: on a 401 with failing refresh, `place_order` stops after one
request with `none`, within the 3-request bound. -/
theorem place_order_jwt_retry_amended_witness :
    (place_order refreshFailEnv 0 0 freshManagerState Outcome.yes 1 2).2.2.1
        ≤ 0 + 3
    ∧ place_order refreshFailEnv 0 0 freshManagerState Outcome.yes 1 2
        = (none, freshManagerState, 0 + 1, 0 + 1) :=
  ⟨(place_order_jwt_retry_amended refreshFailEnv 0 0 freshManagerState
      Outcome.yes 1 2).1,
   (place_order_jwt_retry_amended refreshFailEnv 0 0 freshManagerState
      Outcome.yes 1 2).2
     { status := 401, success := false, invalidJwt := true,
       insufficientCollateral := false, orderId := none }
     rfl rfl rfl rfl⟩
